import Mathlib

/-!
Verification of the BELLA-traccc repository against its natural-language
specification.

The development shallowly embeds the repository's own code:

* src/write_bfield.cpp — the field-grid sampler: the magnet-membership
  predicate, the triple nested while loop that emits one line per grid
  point, and the value returned from main.
* src/truth_fitting_momentum_residual.cpp — the truth-matched fitting
  residual pipeline: the per-event truth-population check (the assert),
  the seed-parameter standard deviations, the per-track residual
  extraction including the empty-track failure, and the residual rows.
* src/telescope_simulation.cpp — only its exit code is relevant to the
  claims; the simulation itself is performed by external collaborators.

Machine scalars: the C++ code computes with float/double.  Every numeric
literal in the embedded code (-100, 1000, 10, 40, 50, 210, 220, 0.5,
0.05, 0.02, 0.0085, 1) is exactly representable in the source's floating
formats, and in the grid loop every value ever taken by the loop
variables is an integer of magnitude at most 1000, so repeated binary64
addition of the spacing is exact.  The embedding therefore uses Int for
the grid loop and the exact rationals for field values and pipeline
scalars; no rounding is elided anywhere a claim depends on it.

External collaborators (detray geometry, the algebra-plugins getters
norm/perp, the Kalman fitter, the event-data loader) are not code of
this repository; where the embedded code consumes their results they
appear as data (resolved momentum scalars, the fitter as a function
argument, the local-to-global transform as a function argument), exactly
as the specification's section 1 declares them external contracts.
-/

/-! ## Field grid sampler: src/write_bfield.cpp -/

/-- One axis of the sampler's nested while loops, fuel-indexed so that the
definition is structurally recursive.  The fuel is always initialised large
enough (see axisPoints_eq below, which proves the fuel-free loop equation
characterising the C++ while loop: while (x < stop) emit x; x += step). -/
def axisGo (stop step : Int) : Nat → Int → List Int
  | 0, _ => []
  | fuel + 1, x => if x < stop then x :: axisGo stop step fuel (x + step) else []

/-- Samples emitted by one axis loop of write_bfield.cpp main: starting at
start, emitting while the coordinate is strictly below stop, advancing by
step each iteration (the source advances by repeated addition of the
spacing; on the integer values involved binary64 addition is exact). -/
def axisPoints (start stop step : Int) : List Int :=
  axisGo stop step (stop - start).toNat start

theorem axisGo_congr (stop step : Int) (hstep : 1 ≤ step) :
    ∀ (f g : Nat) (x : Int), (stop - x).toNat ≤ f → (stop - x).toNat ≤ g →
      axisGo stop step f x = axisGo stop step g x := by
  intro f
  induction f with
  | zero =>
    intro g x hf _
    have hx : ¬ x < stop := by omega
    cases g with
    | zero => rfl
    | succ m => simp [axisGo, hx]
  | succ n ih =>
    intro g x hf hg
    cases g with
    | zero =>
      have hx : ¬ x < stop := by omega
      simp [axisGo, hx]
    | succ m =>
      simp only [axisGo]
      by_cases hx : x < stop
      · rw [if_pos hx, if_pos hx]
        exact congrArg (x :: ·) (ih m (x + step) (by omega) (by omega))
      · rw [if_neg hx, if_neg hx]

/-- Loop equation: axisPoints is exactly the while loop of
write_bfield.cpp (emit the current coordinate while it is below the end
value, then advance by the spacing). -/
theorem axisPoints_eq (start stop step : Int) (hstep : 1 ≤ step) :
    axisPoints start stop step =
      if start < stop then start :: axisPoints (start + step) stop step else [] := by
  by_cases hx : start < stop
  · rw [if_pos hx]
    show axisGo stop step (stop - start).toNat start = _
    have h1 : (stop - start).toNat = ((stop - start).toNat - 1) + 1 := by omega
    rw [h1]
    simp only [axisGo, if_pos hx]
    exact congrArg (start :: ·)
      (axisGo_congr stop step hstep ((stop - start).toNat - 1)
        ((stop - (start + step)).toNat) (start + step) (by omega) (by omega))
  · rw [if_neg hx]
    show axisGo stop step (stop - start).toNat start = []
    have h0 : (stop - start).toNat = 0 := by omega
    rw [h0]
    rfl

/-- Predicate is_in_magnet of src/write_bfield.cpp lines 15-22: the x
coordinate lies in [40, 50] or in [210, 220] (endpoints included), and
the absolute values of y and z are at most 10. -/
def is_in_magnet (x y z : ℚ) : Bool :=
  let is_x_in_magnet : Bool :=
    (decide (40 ≤ x) && decide (x ≤ 50)) || (decide (210 ≤ x) && decide (x ≤ 220))
  let is_y_in_magnet : Bool := decide (|y| ≤ 10)
  let is_z_in_magnet : Bool := decide (|z| ≤ 10)
  is_x_in_magnet && is_y_in_magnet && is_z_in_magnet

/-- Field vector written for a sampled point (lines 51-53 of
write_bfield.cpp): bx = 0, bz = 0, and by = 0.5 inside the magnet and 0
outside. -/
def fieldAt (x y z : ℚ) : ℚ × ℚ × ℚ :=
  (0, if is_in_magnet x y z then 0.5 else 0, 0)

/-- One output line of the sampler: the coordinates followed by the field
vector, as printed on lines 54-55 of write_bfield.cpp. -/
def emitLine (x y z : ℚ) : ℚ × ℚ × ℚ × (ℚ × ℚ × ℚ) :=
  (x, y, z, fieldAt x y z)

/-- The grid points visited by the triple nested while loop of
write_bfield.cpp main (x outer from -100 to 1000, y middle from -500 to
500, z inner from -500 to 500, spacing 10 on every axis; the inner
coordinates are reset to their start values when an inner loop ends). -/
def gridPoints : List (Int × Int × Int) :=
  (axisPoints (-100) 1000 10).flatMap fun x =>
    (axisPoints (-500) 500 10).flatMap fun y =>
      (axisPoints (-500) 500 10).map fun z => (x, y, z)

/-- The full sequence of lines written to bfield.txt. -/
def emittedLines : List (ℚ × ℚ × ℚ × (ℚ × ℚ × ℚ)) :=
  gridPoints.map fun p => emitLine (p.1 : ℚ) (p.2.1 : ℚ) (p.2.2 : ℚ)

/-- Return value of main in src/write_bfield.cpp (line 68): the emitted
lines together with the process exit code, which the source hard-codes
to 1. -/
def write_bfield_main : List (ℚ × ℚ × ℚ × (ℚ × ℚ × ℚ)) × Int :=
  (emittedLines, 1)

/-- Return value of main in src/telescope_simulation.cpp (line 184): the
source hard-codes the exit code 1. -/
def telescope_simulation_exit : Int := 1

/-- Return value of main in src/truth_fitting_momentum_residual.cpp
(line 233): EXIT_SUCCESS, whose value is 0. -/
def truth_fitting_exit : Int := 0

theorem length_flatMap_const {α β : Type} (l : List α) (f : α → List β) (c : Nat)
    (h : ∀ a ∈ l, (f a).length = c) : (l.flatMap f).length = l.length * c := by
  induction l with
  | nil => simp
  | cons hd tl ih =>
    rw [List.flatMap_cons, List.length_append, List.length_cons,
      h hd (List.mem_cons_self hd tl), ih fun a ha => h a (List.mem_cons_of_mem hd ha)]
    ring

theorem axisPoints_x_len : (axisPoints (-100) 1000 10).length = 110 := by decide

theorem axisPoints_yz_len : (axisPoints (-500) 500 10).length = 100 := by decide

/-- C1: the field-grid sampler emits exactly 1,100,000 lines — 110
distinct x values times 100 y values times 100 z values — for the fixed
bounding volume x in [-100, 1000), y in [-500, 500), z in [-500, 500)
with 10-unit spacing; the repeated floating-point addition of the
spacing is exact on these integer values, so no drift occurs. -/
theorem grid_sample_count :
    emittedLines.length = 1100000 ∧
    (axisPoints (-100) 1000 10).length = 110 ∧
    (axisPoints (-500) 500 10).length = 100 := by
  refine ⟨?_, axisPoints_x_len, axisPoints_yz_len⟩
  have hinner : ∀ x ∈ axisPoints (-100) 1000 10,
      ((axisPoints (-500) 500 10).flatMap fun y =>
        (axisPoints (-500) 500 10).map fun z => (x, y, z)).length = 10000 := by
    intro x _
    have h2 : ∀ y ∈ axisPoints (-500) 500 10,
        ((axisPoints (-500) 500 10).map fun z => (x, y, z)).length = 100 := by
      intro y _
      rw [List.length_map]
      exact axisPoints_yz_len
    rw [length_flatMap_const _ _ 100 h2, axisPoints_yz_len]
  have hgrid : gridPoints.length = 1100000 := by
    rw [gridPoints, length_flatMap_const _ _ 10000 hinner, axisPoints_x_len]
  rw [emittedLines, List.length_map, hgrid]

/-- C2: among the three programs, write_bfield and telescope_simulation
return exit code 1 from main on successful completion, while
truth_fitting_momentum_residual returns EXIT_SUCCESS (0); the first two
therefore violate the zero-on-success contract. -/
theorem exit_codes :
    write_bfield_main.2 = 1 ∧ telescope_simulation_exit = 1 ∧
    truth_fitting_exit = 0 ∧
    ¬(write_bfield_main.2 = 0 ∧ telescope_simulation_exit = 0) := by
  refine ⟨rfl, rfl, rfl, ?_⟩
  intro h
  have h1 : (1 : Int) = 0 := h.1
  exact absurd h1 (by norm_num)

theorem magnet_region_iff (x y z : ℚ) :
    is_in_magnet x y z = true ↔
      (((40 ≤ x ∧ x ≤ 50) ∨ (210 ≤ x ∧ x ≤ 220)) ∧ |y| ≤ 10 ∧ |z| ≤ 10) := by
  simp [is_in_magnet, and_assoc]

/-- C3: a sampled point gets field vector (0, 0.5, 0) exactly when its x
lies in [40, 50] or [210, 220] (endpoints included) and the absolute
values of y and z are at most 10, and gets (0, 0, 0) otherwise; in
particular (45, 0, 0) is inside the magnet and (45, 11, 0) outside. -/
theorem field_assignment :
    (∀ x y z : ℚ, fieldAt x y z = (0, 0.5, 0) ↔
      (((40 ≤ x ∧ x ≤ 50) ∨ (210 ≤ x ∧ x ≤ 220)) ∧ |y| ≤ 10 ∧ |z| ≤ 10)) ∧
    (∀ x y z : ℚ,
      ¬(((40 ≤ x ∧ x ≤ 50) ∨ (210 ≤ x ∧ x ≤ 220)) ∧ |y| ≤ 10 ∧ |z| ≤ 10) →
      fieldAt x y z = (0, 0, 0)) ∧
    fieldAt 45 0 0 = (0, 0.5, 0) ∧ fieldAt 45 11 0 = (0, 0, 0) := by
  have hmain : ∀ x y z : ℚ, fieldAt x y z = (0, 0.5, 0) ↔
      (((40 ≤ x ∧ x ≤ 50) ∨ (210 ≤ x ∧ x ≤ 220)) ∧ |y| ≤ 10 ∧ |z| ≤ 10) := by
    intro x y z
    rw [← magnet_region_iff]
    cases hb : is_in_magnet x y z with
    | true => simp [fieldAt, hb]
    | false =>
      simp only [fieldAt, hb, if_false]
      constructor
      · intro h
        have h05 : (0 : ℚ) = 0.5 := congrArg (fun t => t.2.1) h
        exact absurd h05 (by norm_num)
      · intro h
        exact absurd h (by simp)
  refine ⟨hmain, ?_, ?_, ?_⟩
  · intro x y z h
    rw [← magnet_region_iff] at h
    simp only [fieldAt, Bool.not_eq_true] at h ⊢
    rw [h]
    simp
  · exact (hmain 45 0 0).2 (by norm_num)
  · have h : ¬((((40:ℚ) ≤ 45 ∧ (45:ℚ) ≤ 50) ∨ ((210:ℚ) ≤ 45 ∧ (45:ℚ) ≤ 220)) ∧
        |(11:ℚ)| ≤ 10 ∧ |(0:ℚ)| ≤ 10) := by norm_num
    simp only [fieldAt]
    rw [if_neg]
    intro hb
    exact h ((magnet_region_iff 45 11 0).1 hb)

/-- C10: the magnet-membership predicate is mirror-symmetric in the two
transverse coordinates: negating y or negating z never changes it. -/
theorem magnet_mirror_symmetry :
    ∀ x y z : ℚ, is_in_magnet x y z = is_in_magnet x (-y) z ∧
      is_in_magnet x y z = is_in_magnet x y (-z) := by
  intro x y z
  constructor <;> simp [is_in_magnet, abs_neg]

/-! ## Truth-matched fitting residual pipeline:
    src/truth_fitting_momentum_residual.cpp

The event loop body (lines 127-227) is embedded below.  External
collaborators appear as data or function arguments:

* the event-data loader (traccc::event_data) produces the three lookup
  structures; they are the fields of the event_data structure here;
* the algebra getters norm and perp and the momentum components are
  consumed as already-resolved scalars (pnorm on a particle, and the
  p / pT / pz triple of a measurement's global momentum);
* seed generation plus Kalman fitting (lines 151-158) is the opaque
  contract fit(stddevs) -> fitted tracks, a function argument;
* the local-to-global surface transform used for the state file
  (line 223) is the function argument g.
-/

/-- Failure taxonomy of the specification, section 7.  In the source,
DataIntegrityError is the assert on line 134 (and a missing .at lookup),
and EmptyTrackError is the std::runtime_error thrown on line 172.  No
code path of the repository produces DegenerateTrajectoryError. -/
inductive PipelineError where
  | DataIntegrityError
  | DegenerateTrajectoryError
  | EmptyTrackError
deriving DecidableEq

/-- Truth particle as used by the pipeline: an identity key (the
std::map comparator on traccc::particle orders by it), the signed
charge, and the momentum magnitude pnorm, i.e. the externally computed
getter norm of the momentum vector (line 139). -/
structure particle where
  pid : Nat
  charge : ℚ
  pnorm : ℚ
deriving DecidableEq

/-- Global momentum of the truth particle at a measurement, as resolved
by the pipeline on lines 199-203: the magnitude p (getter norm), the
transverse magnitude pT (getter perp), and the signed longitudinal
component pz (component 2 of the vector). -/
structure global_momentum where
  p : ℚ
  pT : ℚ
  pz : ℚ
deriving DecidableEq

/-- Smoothed bound parameters of a fitted track state as read on lines
191-195: qop, qopT and the signed qopz. -/
structure bound_track_parameters where
  qop : ℚ
  qopT : ℚ
  qopz : ℚ
deriving DecidableEq

/-- One fitted track state: its smoothed bound parameters and the
identity of its associated measurement (measurement identity is a map
key in the source; it is embedded as a natural number). -/
structure track_state where
  smoothed : bound_track_parameters
  meas : Nat
deriving DecidableEq

/-- A fitted track: the items vector of per-surface states. -/
structure fitted_track where
  states : List track_state
deriving DecidableEq

/-- The per-event truth structures loaded by traccc::event_data and read
by the pipeline: particle_map lists m_particle_map entries in the
std::map key order (begin() is its head); meas_to_param_map models
m_meas_to_param_map.at(meas).second; meas_to_ptc_map models
m_meas_to_ptc_map.at(meas), a std::map keyed by particle, so its entry
list is in the particle-comparator key order. -/
structure event_data where
  particle_map : List particle
  meas_to_param_map : Nat → Option global_momentum
  meas_to_ptc_map : Nat → Option (List (particle × Nat))

/-- Insertion into a std::map keyed by particle (modelled by the pid
key): a new key is placed in ascending key order, an existing key keeps
its stored entry with the mapped count incremented.  This is the C++
standard container semantics of the type std::map declared on line 205
of the source; the iteration order is the comparator order, independent
of insertion order. -/
def stdMapInsert (p : particle) : List (particle × Nat) → List (particle × Nat)
  | [] => [(p, 1)]
  | (q, c) :: rest =>
    if p.pid < q.pid then (p, 1) :: (q, c) :: rest
    else if p.pid = q.pid then (q, c + 1) :: rest
    else (q, c) :: stdMapInsert p rest

/-- The contributing-particles std::map obtained by inserting the
particles of a load stream one by one, in stream order. -/
def stdMapOfStream (s : List particle) : List (particle × Nat) :=
  s.foldl (fun m p => stdMapInsert p m) []

/-- Seed q/p standard deviation (line 139): 0.05 times the absolute
charge divided by the momentum magnitude. -/
def qop_stddev (charge pnorm : ℚ) : ℚ := 0.05 * |charge| / pnorm

/-- Seed-parameter standard deviations (lines 142-148), with the unit
constants mm and ns kept symbolic exactly as the source writes them:
0.02 mm on each local-position axis, 0.0085 on each direction angle, the
q/p standard deviation, and 1 ns for time. -/
def seed_stddevs (mm ns charge pnorm : ℚ) : List ℚ :=
  [0.02 * mm, 0.02 * mm, 0.0085, 0.0085, qop_stddev charge pnorm, 1 * ns]

/-- One residual-file row (lines 214-218): the fit triple, the truth
triple, and the three signed differences fit minus truth. -/
def residualRow (fit truth : ℚ × ℚ × ℚ) : List ℚ :=
  [fit.1, fit.2.1, fit.2.2, truth.1, truth.2.1, truth.2.2,
   fit.1 - truth.1, fit.2.1 - truth.2.1, fit.2.2 - truth.2.2]

/-- Per-track residual extraction (lines 168-226 for one track): an
empty state vector throws (EmptyTrackError); otherwise the fit triple is
read from the first state's smoothed parameters, the truth momentum is
resolved through the first state's measurement, the charge is taken from
the first entry of the contributing-particles map, the truth triple is
charge / p, charge / pT, charge / pz, and the result is the residual row
together with the per-state global positions g applied to every state.
A failing .at lookup throws std::out_of_range, embedded as the
specification's DataIntegrityError (missing required mapping entry);
begin() on an empty contributing map would be undefined behaviour and is
embedded as the same failure. -/
def processTrack (ed : event_data) (g : track_state → ℚ × ℚ × ℚ)
    (trk : fitted_track) :
    Except PipelineError (List ℚ × List (ℚ × ℚ × ℚ)) :=
  match trk.states with
  | [] => .error .EmptyTrackError
  | st0 :: _ =>
    match ed.meas_to_param_map st0.meas with
    | none => .error .DataIntegrityError
    | some gm =>
      match ed.meas_to_ptc_map st0.meas with
      | none => .error .DataIntegrityError
      | some [] => .error .DataIntegrityError
      | some ((ptc, _) :: _) =>
        let fit := (st0.smoothed.qop, st0.smoothed.qopT, st0.smoothed.qopz)
        let q := ptc.charge
        let truth := (q / gm.p, q / gm.pT, q / gm.pz)
        .ok (residualRow fit truth, trk.states.map g)

/-- The track loop (lines 166-227): tracks are processed in fit-result
order with their running index i; rows written before a throw are kept
(the files already contain them), the throw aborts the loop, and nothing
of the failing track or of any later track is written.  The first
component collects residual rows, the second the state-file rows
(event id, track index, global position), the third the abort cause. -/
def processTracks (ed : event_data) (g : track_state → ℚ × ℚ × ℚ)
    (eventId : Nat) :
    Nat → List fitted_track →
    List (List ℚ) × List (Nat × Nat × (ℚ × ℚ × ℚ)) × Option PipelineError
  | _, [] => ([], [], none)
  | i, t :: ts =>
    match processTrack ed g t with
    | .error e => ([], [], some e)
    | .ok (row, trcs) =>
      let r := processTracks ed g eventId (i + 1) ts
      (row :: r.1, trcs.map (fun xyz => (eventId, i, xyz)) ++ r.2.1, r.2.2)

/-- One iteration of the event loop (lines 127-227): the loaded truth
population must be nonempty (the assert on line 134, embedded as the
specification's DataIntegrityError, aborting before any seed work); the
seed standard deviations are built from the first particle of the
particle map; the opaque seed-generation-plus-fitting contract fit is
applied to them; and the resulting tracks are processed in order. -/
def processEvent (mm ns : ℚ) (ed : event_data)
    (fit : List ℚ → List fitted_track) (g : track_state → ℚ × ℚ × ℚ)
    (eventId : Nat) :
    List (List ℚ) × List (Nat × Nat × (ℚ × ℚ × ℚ)) × Option PipelineError :=
  match ed.particle_map with
  | [] => ([], [], some .DataIntegrityError)
  | ptc :: _ =>
    let stddevs := seed_stddevs mm ns ptc.charge ptc.pnorm
    processTracks ed g eventId 0 (fit stddevs)

/-! ## Helper lemmas about the pipeline -/

theorem processTrack_cons (ed : event_data) (g : track_state → ℚ × ℚ × ℚ)
    (trk : fitted_track) (st0 : track_state) (rest : List track_state)
    (gm : global_momentum) (ptc : particle) (cnt : Nat)
    (others : List (particle × Nat))
    (h1 : trk.states = st0 :: rest)
    (h2 : ed.meas_to_param_map st0.meas = some gm)
    (h3 : ed.meas_to_ptc_map st0.meas = some ((ptc, cnt) :: others)) :
    processTrack ed g trk =
      .ok (residualRow (st0.smoothed.qop, st0.smoothed.qopT, st0.smoothed.qopz)
                       (ptc.charge / gm.p, ptc.charge / gm.pT, ptc.charge / gm.pz),
           trk.states.map g) := by
  simp only [processTrack, h1, h2, h3]

theorem processTrack_ne_degen (ed : event_data) (g : track_state → ℚ × ℚ × ℚ)
    (t : fitted_track) :
    processTrack ed g t ≠ .error .DegenerateTrajectoryError := by
  cases h1 : t.states with
  | nil => simp [processTrack, h1]
  | cons st0 rest =>
    cases h2 : ed.meas_to_param_map st0.meas with
    | none => simp [processTrack, h1, h2]
    | some gm =>
      cases h3 : ed.meas_to_ptc_map st0.meas with
      | none => simp [processTrack, h1, h2, h3]
      | some lst =>
        cases lst with
        | nil => simp [processTrack, h1, h2, h3]
        | cons e others =>
          obtain ⟨ptc, cnt⟩ := e
          simp [processTrack, h1, h2, h3]

theorem processTracks_err_ne_degen (ed : event_data)
    (g : track_state → ℚ × ℚ × ℚ) (eventId : Nat) :
    ∀ (i : Nat) (ts : List fitted_track),
      (processTracks ed g eventId i ts).2.2 ≠
        some PipelineError.DegenerateTrajectoryError := by
  intro i ts
  induction ts generalizing i with
  | nil => simp [processTracks]
  | cons t ts ih =>
    cases hp : processTrack ed g t with
    | error e =>
      simp only [processTracks, hp]
      intro h
      have he : e = PipelineError.DegenerateTrajectoryError := by
        simpa using h
      exact processTrack_ne_degen ed g t (by rw [hp, he])
    | ok pr =>
      obtain ⟨row, trcs⟩ := pr
      simp only [processTracks, hp]
      exact ih (i + 1)

theorem stdMapInsert_pid_mem (p : particle) :
    ∀ (m : List (particle × Nat)) (e : particle × Nat), e ∈ stdMapInsert p m →
      e.1.pid = p.pid ∨ ∃ a ∈ m, e.1.pid = a.1.pid := by
  intro m
  induction m with
  | nil =>
    intro e he
    simp only [stdMapInsert, List.mem_singleton] at he
    left
    rw [he]
  | cons hd tl ih =>
    intro e he
    obtain ⟨q, c⟩ := hd
    simp only [stdMapInsert] at he
    split at he
    · rcases List.mem_cons.1 he with h | h
      · left
        rw [h]
      · rcases List.mem_cons.1 h with h2 | h2
        · right
          exact ⟨(q, c), List.mem_cons_self _ _, by rw [h2]⟩
        · right
          exact ⟨e, List.mem_cons_of_mem _ h2, rfl⟩
    · split at he
      · rcases List.mem_cons.1 he with h | h
        · right
          exact ⟨(q, c), List.mem_cons_self _ _, by rw [h]⟩
        · right
          exact ⟨e, List.mem_cons_of_mem _ h, rfl⟩
      · rcases List.mem_cons.1 he with h | h
        · right
          exact ⟨(q, c), List.mem_cons_self _ _, by rw [h]⟩
        · rcases ih e h with h2 | ⟨a, ha, h3⟩
          · left
            exact h2
          · right
            exact ⟨a, List.mem_cons_of_mem _ ha, h3⟩

theorem stdMapInsert_sorted (p : particle) :
    ∀ (m : List (particle × Nat)),
      m.Pairwise (fun a b => a.1.pid < b.1.pid) →
      (stdMapInsert p m).Pairwise (fun a b => a.1.pid < b.1.pid) := by
  intro m
  induction m with
  | nil =>
    intro _
    simp [stdMapInsert]
  | cons hd tl ih =>
    intro hs
    obtain ⟨q, c⟩ := hd
    rw [List.pairwise_cons] at hs
    obtain ⟨hq, htl⟩ := hs
    simp only [stdMapInsert]
    split
    · rename_i hlt
      rw [List.pairwise_cons]
      constructor
      · intro e he
        rcases List.mem_cons.1 he with h | h
        · rw [h]
          exact hlt
        · exact lt_trans hlt (hq e h)
      · rw [List.pairwise_cons]
        exact ⟨hq, htl⟩
    · split
      · rw [List.pairwise_cons]
        exact ⟨fun e he => hq e he, htl⟩
      · rename_i hnlt hne
        rw [List.pairwise_cons]
        constructor
        · intro e he
          rcases stdMapInsert_pid_mem p tl e he with h | ⟨a, ha, h2⟩
          · rw [h]
            show q.pid < p.pid
            omega
          · rw [h2]
            exact hq a ha
        · exact ih htl

theorem stdMapOfStream_sorted_aux :
    ∀ (s : List particle) (acc : List (particle × Nat)),
      acc.Pairwise (fun a b => a.1.pid < b.1.pid) →
      (s.foldl (fun m p => stdMapInsert p m) acc).Pairwise
        (fun a b => a.1.pid < b.1.pid) := by
  intro s
  induction s with
  | nil =>
    intro acc h
    exact h
  | cons hd tl ih =>
    intro acc h
    exact ih _ (stdMapInsert_sorted hd acc h)

theorem stdMapOfStream_sorted (s : List particle) :
    (stdMapOfStream s).Pairwise fun a b => a.1.pid < b.1.pid :=
  stdMapOfStream_sorted_aux s [] List.Pairwise.nil

/-! ## Concrete instances used by witnesses and counterexamples -/

/-- Trivial local-to-global transform used as the external geometry
collaborator in concrete evaluations. -/
def g0 : track_state → ℚ × ℚ × ℚ := fun _ => (0, 0, 0)

/-- Stub seed-plus-fitter collaborator returning no fitted tracks. -/
def fit0 : List ℚ → List fitted_track := fun _ => []

/-- Particle with the smaller identity key and charge +1. -/
def p1 : particle := ⟨1, 1, 1⟩

/-- Particle with the larger identity key and charge -1. -/
def p2 : particle := ⟨2, -1, 1⟩

/-- Event data whose contributing-particles map for every measurement
holds p1 before p2 (the key order of the std::map), with a resolved
global momentum of magnitude 2, transverse magnitude 1 and longitudinal
component 1. -/
def ed5 : event_data :=
  ⟨[p1], fun _ => some ⟨2, 1, 1⟩, fun _ => some [(p1, 1), (p2, 1)]⟩

/-- A fitted track with one state whose smoothed parameters are all
zero, associated to measurement 0. -/
def trk5 : fitted_track := ⟨[⟨⟨0, 0, 0⟩, 0⟩]⟩

/-- Event data with an empty truth population. -/
def ed_empty : event_data := ⟨[], fun _ => none, fun _ => none⟩

/-- Event data with a single truth particle of zero momentum magnitude. -/
def ed_zero : event_data := ⟨[⟨0, 1, 0⟩], fun _ => none, fun _ => none⟩

/-- Event data with a single truth particle of charge 2 and momentum
magnitude 3. -/
def ed_one : event_data := ⟨[⟨0, 2, 3⟩], fun _ => none, fun _ => none⟩

/-- A fitted track with zero states. -/
def trk_empty : fitted_track := ⟨[]⟩

/-! ## Claim theorems for the pipeline -/

/-- C4: for every event with a nonempty truth population, the seed
standard deviations handed to seed generation and fitting are 0.02 mm on
each local-position axis, 0.0085 on each direction angle, 0.05 times the
absolute charge divided by the momentum magnitude of the truth particle
for q/p, and 1 ns for time.  The statement is quantified over the opaque
fit collaborator, so it pins down exactly which standard-deviation list
the pipeline passes to it. -/
theorem seed_stddev_values (mm ns : ℚ) (ed : event_data)
    (fit : List ℚ → List fitted_track) (g : track_state → ℚ × ℚ × ℚ)
    (eventId : Nat) (ptc : particle) (rest : List particle)
    (hp : ed.particle_map = ptc :: rest) :
    processEvent mm ns ed fit g eventId =
      processTracks ed g eventId 0
        (fit [0.02 * mm, 0.02 * mm, 0.0085, 0.0085,
              0.05 * |ptc.charge| / ptc.pnorm, 1 * ns]) := by
  simp only [processEvent, hp, seed_stddevs, qop_stddev]

theorem seed_stddev_values_witness :
    processEvent 1 1 ed_one fit0 g0 0 =
      processTracks ed_one g0 0 0
        (fit0 [0.02 * 1, 0.02 * 1, 0.0085, 0.0085,
               0.05 * |(2 : ℚ)| / 3, 1 * 1]) :=
  seed_stddev_values 1 1 ed_one fit0 g0 0 ⟨0, 2, 3⟩ [] rfl

/-- C5 counterexample: the contributing-particles collection is a
std::map keyed by particle, so its first entry is the least key, not the
particle seen first in the load stream.  Inserting the stream p2 then p1
(p1 having the smaller key) yields a map whose first entry is p1 while
the first-seen particle is p2, and their charges differ; the extraction
consequently uses the charge +1 of p1, not the charge -1 of the
first-seen p2. -/
theorem contributing_order_counterexample :
    stdMapOfStream [p2, p1] = [(p1, 1), (p2, 1)] ∧
    [p2, p1].head? = some p2 ∧
    (stdMapOfStream [p2, p1]).head? = some (p1, 1) ∧
    p1.charge ≠ p2.charge ∧
    processTrack ed5 g0 trk5 =
      .ok (residualRow (0, 0, 0) (p1.charge / 2, p1.charge / 1, p1.charge / 1),
           [(0, 0, 0)]) := by
  refine ⟨by decide, rfl, by decide, by decide, ?_⟩
  rfl

/-- C5 (amended): the truth quantities are charge divided by the
momentum magnitude, by the transverse magnitude, and by the signed
longitudinal component, the momentum being resolved through the first
state's measurement; the charge comes from the first entry of the
contributing-particles std::map, whose iteration order is the ascending
particle-key order of its comparator — independent of first-seen order
in the load stream (second conjunct: every map built from a load stream
is strictly sorted by the particle key). -/
theorem truth_qop_resolution :
    (∀ (ed : event_data) (g : track_state → ℚ × ℚ × ℚ) (trk : fitted_track)
       (st0 : track_state) (rest : List track_state) (gm : global_momentum)
       (ptc : particle) (cnt : Nat) (others : List (particle × Nat)),
       trk.states = st0 :: rest →
       ed.meas_to_param_map st0.meas = some gm →
       ed.meas_to_ptc_map st0.meas = some ((ptc, cnt) :: others) →
       processTrack ed g trk =
         .ok (residualRow (st0.smoothed.qop, st0.smoothed.qopT, st0.smoothed.qopz)
                          (ptc.charge / gm.p, ptc.charge / gm.pT, ptc.charge / gm.pz),
              trk.states.map g)) ∧
    (∀ s : List particle,
       (stdMapOfStream s).Pairwise fun a b => a.1.pid < b.1.pid) := by
  constructor
  · intro ed g trk st0 rest gm ptc cnt others h1 h2 h3
    exact processTrack_cons ed g trk st0 rest gm ptc cnt others h1 h2 h3
  · exact stdMapOfStream_sorted

theorem truth_qop_resolution_witness :
    processTrack ed5 g0 trk5 =
      .ok (residualRow (0, 0, 0) (p1.charge / 2, p1.charge / 1, p1.charge / 1),
           [(0, 0, 0)]) ∧
    (stdMapOfStream [p2, p1]).Pairwise (fun a b => a.1.pid < b.1.pid) := by
  constructor
  · exact truth_qop_resolution.1 ed5 g0 trk5 ⟨⟨0, 0, 0⟩, 0⟩ [] ⟨2, 1, 1⟩
      p1 1 [(p2, 1)] rfl rfl rfl
  · exact truth_qop_resolution.2 [p2, p1]

/-- C6: each residual row is the fit triple, the truth triple, and the
three signed differences fit minus truth (first two conjuncts), so a
track whose fit triple equals its truth triple has all three residual
entries exactly zero (last conjunct). -/
theorem residual_row_algebra :
    (∀ (ed : event_data) (g : track_state → ℚ × ℚ × ℚ) (trk : fitted_track)
       (st0 : track_state) (rest : List track_state) (gm : global_momentum)
       (ptc : particle) (cnt : Nat) (others : List (particle × Nat)),
       trk.states = st0 :: rest →
       ed.meas_to_param_map st0.meas = some gm →
       ed.meas_to_ptc_map st0.meas = some ((ptc, cnt) :: others) →
       processTrack ed g trk =
         .ok (residualRow (st0.smoothed.qop, st0.smoothed.qopT, st0.smoothed.qopz)
                          (ptc.charge / gm.p, ptc.charge / gm.pT, ptc.charge / gm.pz),
              trk.states.map g)) ∧
    (∀ fitT truthT : ℚ × ℚ × ℚ,
       residualRow fitT truthT =
         [fitT.1, fitT.2.1, fitT.2.2, truthT.1, truthT.2.1, truthT.2.2,
          fitT.1 - truthT.1, fitT.2.1 - truthT.2.1, fitT.2.2 - truthT.2.2]) ∧
    (∀ v : ℚ × ℚ × ℚ,
       residualRow v v = [v.1, v.2.1, v.2.2, v.1, v.2.1, v.2.2, 0, 0, 0]) := by
  refine ⟨?_, fun fitT truthT => rfl, ?_⟩
  · intro ed g trk st0 rest gm ptc cnt others h1 h2 h3
    exact processTrack_cons ed g trk st0 rest gm ptc cnt others h1 h2 h3
  · intro v
    simp [residualRow, sub_self]

theorem residual_row_algebra_witness :
    processTrack ed5 g0 trk5 =
      .ok (residualRow (0, 0, 0) (p1.charge / 2, p1.charge / 1, p1.charge / 1),
           [(0, 0, 0)]) ∧
    residualRow (1, 2, 3) (1, 2, 3) = [1, 2, 3, 1, 2, 3, 0, 0, 0] := by
  constructor
  · exact residual_row_algebra.1 ed5 g0 trk5 ⟨⟨0, 0, 0⟩, 0⟩ [] ⟨2, 1, 1⟩
      p1 1 [(p2, 1)] rfl rfl rfl
  · exact residual_row_algebra.2.2 (1, 2, 3)

/-- C7: a fitted track with zero states makes the extractor throw
(EmptyTrackError, aborting the track loop), and no residual row and no
position-trace row of that track is emitted: wherever the zero-state
track sits in the fit result, the run ends with an error, at most one
residual row per preceding track exists, and every trace row carries a
track index strictly before the failing track. -/
theorem empty_track_error :
    (∀ (ed : event_data) (g : track_state → ℚ × ℚ × ℚ) (trk : fitted_track),
       trk.states = [] →
       processTrack ed g trk = .error .EmptyTrackError) ∧
    (∀ (ed : event_data) (g : track_state → ℚ × ℚ × ℚ) (eventId i : Nat)
       (pre : List fitted_track) (t : fitted_track) (post : List fitted_track),
       t.states = [] →
       (processTracks ed g eventId i (pre ++ t :: post)).2.2.isSome = true ∧
       (processTracks ed g eventId i (pre ++ t :: post)).1.length ≤ pre.length ∧
       ∀ tr ∈ (processTracks ed g eventId i (pre ++ t :: post)).2.1,
         tr.2.1 < i + pre.length) := by
  have part1 : ∀ (ed : event_data) (g : track_state → ℚ × ℚ × ℚ)
      (trk : fitted_track), trk.states = [] →
      processTrack ed g trk = .error .EmptyTrackError := by
    intro ed g trk h
    simp only [processTrack, h]
  refine ⟨part1, ?_⟩
  intro ed g eventId i pre t post ht
  induction pre generalizing i with
  | nil =>
    have hp : processTrack ed g t = .error .EmptyTrackError := part1 ed g t ht
    simp only [List.nil_append, processTracks, hp]
    refine ⟨rfl, Nat.le_refl 0, ?_⟩
    intro tr htr
    simp at htr
  | cons hd pre ih =>
    cases hp : processTrack ed g hd with
    | error e =>
      simp only [List.cons_append, processTracks, hp]
      exact ⟨rfl, Nat.zero_le _, fun tr htr => absurd htr (by simp)⟩
    | ok pr =>
      obtain ⟨row, trcs⟩ := pr
      simp only [List.cons_append, processTracks, hp]
      obtain ⟨h1, h2, h3⟩ := ih (i + 1)
      refine ⟨h1, ?_, ?_⟩
      · simpa using Nat.succ_le_succ h2
      · intro tr htr
        rcases List.mem_append.1 htr with hm | hm
        · rcases List.mem_map.1 hm with ⟨xyz, _, hxyz⟩
          have hidx : tr.2.1 = i := by rw [← hxyz]
          rw [hidx, List.length_cons]
          omega
        · have := h3 tr hm
          rw [List.length_cons]
          omega

theorem empty_track_error_witness :
    processTrack ed_one g0 trk_empty = .error .EmptyTrackError ∧
    (processTracks ed_one g0 0 0 ([] ++ trk_empty :: [])).2.2.isSome = true := by
  constructor
  · exact empty_track_error.1 ed_one g0 trk_empty rfl
  · exact (empty_track_error.2 ed_one g0 0 0 [] trk_empty [] rfl).1

/-- C8: an event with an empty loaded truth-particle population fails
immediately (the assert on line 134, the specification's
DataIntegrityError): nothing is emitted and, since the statement holds
for every fit collaborator, seed generation and fitting are never
reached for that event. -/
theorem empty_truth_population (mm ns : ℚ) (ed : event_data)
    (fit : List ℚ → List fitted_track) (g : track_state → ℚ × ℚ × ℚ)
    (eventId : Nat) (h : ed.particle_map = []) :
    processEvent mm ns ed fit g eventId =
      ([], [], some PipelineError.DataIntegrityError) := by
  simp only [processEvent, h]

theorem empty_truth_population_witness :
    processEvent 1 1 ed_empty fit0 g0 0 =
      ([], [], some PipelineError.DataIntegrityError) :=
  empty_truth_population 1 1 ed_empty fit0 g0 0 rfl

/-- C9 counterexample: a truth particle of zero momentum magnitude does
not make the pipeline fail; the event with such a particle and a fitter
returning no tracks completes with no error recorded (in the C++
arithmetic the q/p standard deviation is a division by zero producing a
non-finite float, and execution simply continues). -/
theorem zero_momentum_counterexample :
    ed_zero.particle_map.map particle.pnorm = [0] ∧
    processEvent 1 1 ed_zero fit0 g0 0 = ([], [], none) := by
  exact ⟨rfl, rfl⟩

/-- C9 (amended): seed generation never fails on a zero momentum
magnitude — no code path of the pipeline produces
DegenerateTrajectoryError; the q/p standard deviation is computed by an
unguarded division and processing continues. -/
theorem zero_momentum_no_failure (mm ns : ℚ) (ed : event_data)
    (fit : List ℚ → List fitted_track) (g : track_state → ℚ × ℚ × ℚ)
    (eventId : Nat) (ptc : particle) (rest : List particle)
    (hp : ed.particle_map = ptc :: rest) (h0 : ptc.pnorm = 0) :
    (processEvent mm ns ed fit g eventId).2.2 ≠
      some PipelineError.DegenerateTrajectoryError := by
  simp only [processEvent, hp]
  exact processTracks_err_ne_degen ed g eventId 0 _

theorem zero_momentum_no_failure_witness :
    (processEvent 1 1 ed_zero fit0 g0 0).2.2 ≠
      some PipelineError.DegenerateTrajectoryError :=
  zero_momentum_no_failure 1 1 ed_zero fit0 g0 0 ⟨0, 1, 0⟩ [] rfl rfl

/-- C3 witness: a point outside the magnet region receives the zero
field, and the documented boundary point receives the magnet field. -/
theorem field_assignment_witness :
    fieldAt 60 0 0 = (0, 0, 0) ∧ fieldAt 45 0 0 = (0, 0.5, 0) := by
  constructor
  · exact field_assignment.2.1 60 0 0 (by norm_num)
  · exact field_assignment.2.2.1
